import Mathlib

/-!
# Click counter service (main.go)

A shallow embedding of the click-counting service: the HTTP handlers
`handleCounter` and `handleStats`, the batching goroutine `batchWorker`, and the
transactional `flushBatch`, together with the parts of the Go runtime, of package
`fmt` and of the SQL statements they rely on.

Conventions.
* Go `int` values are `Int`; the program performs no arithmetic on them (the only
  addition is done by the database inside the upsert).
* Points in time are `Int` microseconds; `date_trunc('minute', _)` rounds down to a
  multiple of sixty million.
* Table `clicks` is the list of its rows; two lists that are permutations of each
  other are the same table.
* Everything the environment decides (which `select` case fires, whether a database
  call fails, the value of `NOW()`) is an explicit input.
-/

namespace Clicks

/-! ## Data model -/

/-- Element type of `clickChan` (struct `ClickBatch`). -/
structure ClickBatch where
  BannerID : Int
  Count : Int
deriving DecidableEq, Repr

/-- Struct `Click`, the element type of the stats response. -/
structure Click where
  BannerID : Int
  Timestamp : Int
  Count : Int
deriving DecidableEq, Repr

/-- Struct `StatsRequest`, the bound JSON body of a stats request. -/
structure StatsRequest where
  TsFrom : Int
  TsTo : Int
deriving DecidableEq, Repr

/-- One row of table `clicks (banner_id, timestamp, count)`. -/
structure Row where
  banner_id : Int
  timestamp : Int
  count : Int
deriving DecidableEq, Repr

/-- Contents of table `clicks`. -/
abbrev Store := List Row

/-- The variable `batchSize`. -/
def batchSize : Nat := 100

/-- Capacity of `clickChan`, from `make(chan ClickBatch, 10000)` in `main`. -/
def clickChanCap : Nat := 10000

/-! ## Storage: the two SQL statements -/

/-- The SQL expression `date_trunc('minute', t)`. -/
def dateTruncMinute (t : Int) : Int := t - t % 60000000

/-- Condition under which a row conflicts with the key `(id, bucket)` of the unique
index named in `ON CONFLICT (banner_id, timestamp)`. -/
def keyIs (id bucket : Int) (r : Row) : Bool :=
  r.banner_id == id && r.timestamp == bucket

/-- The clause `DO UPDATE SET count = clicks.count + EXCLUDED.count`, applied to the row
that conflicts with the key `(id, bucket)`; other rows are not touched. -/
def bump (id bucket amount : Int) (r : Row) : Row :=
  if keyIs id bucket r then { r with count := r.count + amount } else r

/-- The statement prepared in `flushBatch`:
`INSERT INTO clicks (banner_id, timestamp, count) VALUES ($1, bucket, $2)
 ON CONFLICT (banner_id, timestamp) DO UPDATE SET count = clicks.count + EXCLUDED.count`. -/
def upsert (tx : Store) (id bucket amount : Int) : Store :=
  if tx.any (keyIs id bucket) then tx.map (bump id bucket amount)
  else tx ++ [{ banner_id := id, timestamp := bucket, count := amount }]

/-- Stored count of `(id, bucket)`: the count of its row, `0` when there is no row. -/
def countOf (db : Store) (id bucket : Int) : Int :=
  match db.find? (keyIs id bucket) with
  | some r => r.count
  | none => 0

/-- Order of `ORDER BY timestamp`. -/
def byTimestamp (a b : Row) : Prop := a.timestamp ≤ b.timestamp

instance : DecidableRel byTimestamp := fun a b => inferInstanceAs (Decidable (a.timestamp ≤ b.timestamp))

instance : IsTotal Row byTimestamp := ⟨fun a b => le_total a.timestamp b.timestamp⟩

instance : IsTrans Row byTimestamp := ⟨fun _ _ _ h₁ h₂ => le_trans h₁ h₂⟩

/-- Predicate of the `WHERE` clause in `handleStats`:
`banner_id = $1 AND timestamp BETWEEN $2 AND $3`. -/
def inRange (id tsFrom tsTo : Int) (r : Row) : Bool :=
  r.banner_id == id && (decide (tsFrom ≤ r.timestamp) && decide (r.timestamp ≤ tsTo))

/-- The query of `handleStats`:
`SELECT timestamp, count FROM clicks WHERE banner_id = $1 AND timestamp BETWEEN $2 AND $3
 ORDER BY timestamp`. -/
def selectStats (db : Store) (id tsFrom tsTo : Int) : List Row :=
  (db.filter (inRange id tsFrom tsTo)).insertionSort byTimestamp

/-! ## Package fmt: `Sscanf(str, "%d", &id)` -/

/-- Function `isSpace` of fmt/scan.go (its table `space`). -/
def isSpace (r : Char) : Bool :=
  let n := r.toNat
  (decide (0x0009 ≤ n) && decide (n ≤ 0x000d)) || n == 0x0020 || n == 0x0085 || n == 0x00a0
    || n == 0x1680 || (decide (0x2000 ≤ n) && decide (n ≤ 0x200a)) || n == 0x2028 || n == 0x2029
    || n == 0x202f || n == 0x205f || n == 0x3000

/-- Method `SkipSpace` of the scan state when scanning with a format: white space is
skipped, a newline is an error (`none`). -/
def SkipSpace : List Char → Option (List Char)
  | [] => some []
  | r :: rest =>
    if r = Char.ofNat 13 ∧ rest.head? = some (Char.ofNat 10) then SkipSpace rest
    else if r = Char.ofNat 10 then none
    else if isSpace r then SkipSpace rest
    else some (r :: rest)

/-- The digit set used by verb `%d`. -/
def decimalDigits : List Char := "0123456789".toList

/-- The sign set accepted in front of a number. -/
def sign : List Char := "+-".toList

/-- Value of a string of decimal digits. -/
def digitsValue (ds : List Char) : Nat :=
  ds.foldl (fun acc d => 10 * acc + (d.toNat - 48)) 0

/-- Method `scanInt` for verb `%d` and a 64-bit `int`: skip space, accept one optional
sign, accept one or more decimal digits, convert with `strconv.ParseInt(tok, 10, 64)`.
Scanning stops at the first rune that is not a digit; what follows is left unread. -/
def scanInt (input : List Char) : Option Int :=
  match SkipSpace input with
  | none => none
  | some [] => none
  | some (r :: rest) =>
    let body := if r ∈ sign then rest else r :: rest
    let tok := body.takeWhile (fun d => decide (d ∈ decimalDigits))
    if tok = [] then none
    else
      let i : Int := if r = Char.ofNat 45 then -(digitsValue tok : Int) else (digitsValue tok : Int)
      if -(2 : Int) ^ 63 ≤ i ∧ i < (2 : Int) ^ 63 then some i else none

/-- The call `fmt.Sscanf(str, "%d", &id)`: `some id` when it returns a nil error, `none`
when it returns an error. The format is the single verb, so after it nothing more is
matched against the input. -/
def Sscanf (str : String) : Option Int :=
  match SkipSpace str.toList with
  | none => none
  | some rest => scanInt rest

/-! ## HTTP replies -/

/-- JSON values as they are written to a response body. -/
inductive Json where
  | null
  | num (n : Int)
  | time (t : Int)
  | str (s : String)
  | arr (xs : List Json)
  | obj (kvs : List (String × Json))

/-- What a handler does to its request. -/
inductive Reply where
  | json (code : Nat) (body : Json)
  | status (code : Nat)
  | blockedOnSend
  | sendOnClosed

/-- A Go slice value: `none` is the nil slice. -/
abbrev Slice (α : Type) := Option (List α)

/-- The built-in `append(s, x)`. -/
def goAppend {α : Type} (s : Slice α) (x : α) : Slice α :=
  match s with
  | none => some [x]
  | some xs => some (xs ++ [x])

/-- Encoding of a `Click` by encoding/json, following the struct tags. -/
def marshalClick (c : Click) : Json :=
  Json.obj [("banner_id", Json.num c.BannerID), ("timestamp", Json.time c.Timestamp),
    ("count", Json.num c.Count)]

/-- Encoding of a `[]Click` by encoding/json: the nil slice is encoded as `null`. -/
def marshalClicks (s : Slice Click) : Json :=
  match s with
  | none => Json.null
  | some cs => Json.arr (cs.map marshalClick)

/-! ## The channel and `handleCounter` -/

/-- State of `clickChan`: the buffered elements, oldest first, and whether it is closed. -/
structure Chan where
  buf : List ClickBatch
  closed : Bool
deriving DecidableEq, Repr

/-- Function `handleCounter`. -/
def handleCounter (bannerID : String) (clickChan : Chan) : Reply × Chan :=
  match Sscanf bannerID with
  | none => (Reply.json 400 (Json.obj [("error", Json.str "invalid banner ID")]), clickChan)
  | some id =>
    if clickChan.closed then (Reply.sendOnClosed, clickChan)
    else if clickChan.buf.length < clickChanCap then
      (Reply.status 200, { clickChan with buf := clickChan.buf ++ [{ BannerID := id, Count := 1 }] })
    else (Reply.blockedOnSend, clickChan)

/-! ## `handleStats` -/

/-- Failures the database may produce while a stats query is served. -/
structure QueryEnv where
  queryErr : Option String
  nextStops : Option Nat
  scanErr : Nat → Option String

/-- A database that answers the query without any failure. -/
def QueryEnv.healthy : QueryEnv :=
  { queryErr := none, nextStops := none, scanErr := fun _ => none }

/-- The statements `var click Click; rows.Scan(&click.Timestamp, &click.Count)` on a result
row: only the two selected columns are scanned, `click.BannerID` keeps its zero value. -/
def scanRow (r : Row) : Click :=
  { BannerID := 0, Timestamp := r.timestamp, Count := r.count }

/-- The slice obtained from `var stats []Click` by appending the elements of `cs` one by
one: it is still nil when there is nothing to append. -/
def sliceOf (cs : List Click) : Slice Click :=
  match cs with
  | [] => none
  | c :: rest => some (c :: rest)

/-- The loop `for rows.Next() { ...; stats = append(stats, click) }`; `rows.Err()` is not
consulted afterwards, so a failure of `rows.Next()` only ends the loop. -/
def scanLoop (q : QueryEnv) : Nat → List Row → Slice Click → Except String (Slice Click)
  | _, [], stats => Except.ok stats
  | i, r :: rows, stats =>
    if q.nextStops = some i then Except.ok stats
    else
      match q.scanErr i with
      | some e => Except.error e
      | none =>
        scanLoop q (i + 1) rows (goAppend stats (scanRow r))

/-- Function `handleStats`; `body` is the result of `c.ShouldBindJSON(&req)`. -/
def handleStats (db : Store) (q : QueryEnv) (bannerID : String) (body : Except String StatsRequest) :
    Reply :=
  match Sscanf bannerID with
  | none => Reply.json 400 (Json.obj [("error", Json.str "invalid banner ID")])
  | some id =>
    match body with
    | Except.error e => Reply.json 400 (Json.obj [("error", Json.str e)])
    | Except.ok req =>
      match q.queryErr with
      | some e => Reply.json 500 (Json.obj [("error", Json.str e)])
      | none =>
        match scanLoop q 0 (selectStats db id req.TsFrom req.TsTo) none with
        | Except.error e => Reply.json 500 (Json.obj [("error", Json.str e)])
        | Except.ok stats => Reply.json 200 (Json.obj [("stats", marshalClicks stats)])

/-! ## `flushBatch` -/

/-- What the database does during one flush: the transaction time `NOW()` and which of
the calls fail. `execErr i tx click` tells whether the `i`-th `ExecContext` fails, given
the rows the transaction sees at that moment. -/
structure DbEnv where
  now : Int
  beginErr : Bool
  prepareErr : Bool
  execErr : Nat → Store → ClickBatch → Bool
  commitErr : Bool

/-- A database on which every call succeeds. -/
def DbEnv.healthy (now : Int) : DbEnv :=
  { now := now, beginErr := false, prepareErr := false, execErr := fun _ _ _ => false,
    commitErr := false }

/-- Calls made on the database handle, the transaction and the statement. -/
inductive DbCall where
  | beginTx
  | prepare
  | exec (banner_id : Int) (count : Int)
  | rollback
  | commit
deriving DecidableEq, Repr

/-- How a call of `flushBatch` ends. -/
inductive FlushOutcome where
  | blockedOnLock
  | emptyBatch
  | beginFailed
  | prepareFailed
  | execFailed (i : Nat)
  | commitFailed
  | committed
deriving DecidableEq, Repr

/-- Result of the transactional part of `flushBatch`. -/
structure TxResult where
  db : Store
  outcome : FlushOutcome
  calls : List DbCall
deriving DecidableEq, Repr

/-- The loop `for _, click := range currentBatch { stmt.ExecContext(ctx, click.BannerID, click.Count) }`:
returns the rows seen by the transaction after the last statement, or the index of the
statement that failed, and the calls made. -/
def execLoop (env : DbEnv) (bucket : Int) :
    Nat → List ClickBatch → Store → List DbCall → Option Store × Option Nat × List DbCall
  | _, [], tx, calls => (some tx, none, calls)
  | i, click :: rest, tx, calls =>
    if env.execErr i tx click then
      (none, some i, calls ++ [DbCall.exec click.BannerID click.Count])
    else
      execLoop env bucket (i + 1) rest (upsert tx click.BannerID bucket click.Count)
        (calls ++ [DbCall.exec click.BannerID click.Count])

/-- Lines 151 to 182 of `flushBatch`: begin, prepare, one exec per element of the captured
batch, commit; roll back on a prepare or exec error. -/
def runTx (env : DbEnv) (db : Store) (currentBatch : List ClickBatch) : TxResult :=
  if env.beginErr then { db := db, outcome := FlushOutcome.beginFailed, calls := [DbCall.beginTx] }
  else if env.prepareErr then
    { db := db, outcome := FlushOutcome.prepareFailed,
      calls := [DbCall.beginTx, DbCall.prepare, DbCall.rollback] }
  else
    match execLoop env (dateTruncMinute env.now) 0 currentBatch db [DbCall.beginTx, DbCall.prepare] with
    | (some tx, _, calls) =>
      if env.commitErr then
        { db := db, outcome := FlushOutcome.commitFailed, calls := calls ++ [DbCall.commit] }
      else { db := tx, outcome := FlushOutcome.committed, calls := calls ++ [DbCall.commit] }
    | (none, i, calls) =>
      { db := db, outcome := FlushOutcome.execFailed (i.getD 0), calls := calls ++ [DbCall.rollback] }

/-- Whether the worker goroutine is still making progress. -/
inductive Status where
  | running
  | deadlocked
  | unlockOfUnlocked
  | returned
deriving DecidableEq, Repr

/-- State of the process as far as `batchWorker` and `flushBatch` see it: the channel,
the local slice `batch`, the local mutex `mu` (`true` when held), table `clicks`, the
batches captured by `flushBatch` so far, and the status of the worker goroutine. -/
structure State where
  clickChan : Chan
  batch : List ClickBatch
  mu : Bool
  db : Store
  flushes : List (List ClickBatch)
  status : Status
deriving DecidableEq, Repr

/-- What a call of `flushBatch` reports besides the new state. -/
structure FlushReport where
  outcome : FlushOutcome
  calls : List DbCall
deriving DecidableEq, Repr

/-- Function `flushBatch`. `mu.Lock()` on a mutex that is held never returns
(`sync.Mutex` is not reentrant and only the worker goroutine uses `mu`). -/
def flushBatch (env : DbEnv) (s : State) : State × FlushReport :=
  if s.mu then
    ({ s with status := Status.deadlocked }, { outcome := FlushOutcome.blockedOnLock, calls := [] })
  else if s.batch.length = 0 then (s, { outcome := FlushOutcome.emptyBatch, calls := [] })
  else
    let currentBatch := s.batch
    let r := runTx env s.db currentBatch
    ({ s with batch := [], db := r.db, flushes := s.flushes ++ [currentBatch] },
      { outcome := r.outcome, calls := r.calls })

/-! ## `batchWorker` -/

/-- The case of the `select` statement that is taken in one iteration of the loop. -/
inductive Sel where
  | recv
  | tick
deriving DecidableEq, Repr

/-- The statement `mu.Unlock()`. -/
def unlock (s : State) : State :=
  if s.mu then { s with mu := false } else { s with status := Status.unlockOfUnlocked }

/-- One iteration of the loop of `batchWorker`, taking case `sel`; `env` is the database
behaviour during the flush this iteration may perform. The receive case is ready when the
channel has a buffered element or is closed. -/
def step (env : DbEnv) (s : State) (sel : Sel) : State :=
  match s.status with
  | Status.running =>
    match sel with
    | Sel.tick => (flushBatch env s).1
    | Sel.recv =>
      match s.clickChan.buf with
      | [] =>
        if s.clickChan.closed then
          let s₁ := (flushBatch env s).1
          if s₁.status = Status.running then { s₁ with status := Status.returned } else s₁
        else s
      | click :: rest =>
        let s₁ := { s with clickChan := { s.clickChan with buf := rest } }
        if s₁.mu then { s₁ with status := Status.deadlocked }
        else
          let s₂ := { s₁ with mu := true, batch := s₁.batch ++ [click] }
          if s₂.batch.length ≥ batchSize then
            let s₃ := (flushBatch env s₂).1
            if s₃.status = Status.running then unlock s₃ else s₃
          else unlock s₂
  | _ => s

/-- A run of the worker: the iterations of its loop, each with the `select` case taken and
the behaviour of the database. -/
def run (sched : List (Sel × DbEnv)) (s : State) : State :=
  sched.foldl (fun s x => step x.2 s x.1) s

/-- The worker right after `main` started it: nothing buffered beyond `buf`, empty batch,
free mutex. -/
def State.init (buf : List ClickBatch) (closed : Bool) (db : Store) : State :=
  { clickChan := { buf := buf, closed := closed }, batch := [], mu := false, db := db,
    flushes := [], status := Status.running }

/-- Sum of the amounts of the events of `batch` that carry counter `id`. -/
def amountFor (id : Int) (batch : List ClickBatch) : Int :=
  ((batch.filter (fun c => c.BannerID == id)).map ClickBatch.Count).sum

/-- The upserts of a batch applied in order to the rows `tx`, all with the same bucket. -/
def applyAll (bucket : Int) (tx : Store) (batch : List ClickBatch) : Store :=
  batch.foldl (fun tx c => upsert tx c.BannerID bucket c.Count) tx

/-- Number of `ExecContext` calls in a list of database calls. -/
def execCount (calls : List DbCall) : Nat :=
  (calls.filter (fun c => match c with | DbCall.exec _ _ => true | _ => false)).length

/-! ## Lemmas on the storage statements -/

theorem keyIs_iff (id b : Int) (r : Row) : keyIs id b r = true ↔ r.banner_id = id ∧ r.timestamp = b := by
  simp [keyIs]

theorem keyIs_bump (id b a id' b' : Int) (r : Row) : keyIs id' b' (bump id b a r) = keyIs id' b' r := by
  unfold bump
  split <;> simp [keyIs]

theorem countOf_nil (id b : Int) : countOf [] id b = 0 := rfl

theorem countOf_cons (r : Row) (db : Store) (id b : Int) :
    countOf (r :: db) id b = if keyIs id b r then r.count else countOf db id b := by
  unfold countOf
  by_cases h : keyIs id b r = true <;> simp [List.find?_cons, h]

theorem countOf_map_bump_same (db : Store) (id b a : Int) :
    countOf (db.map (bump id b a)) id b
      = countOf db id b + (if db.any (keyIs id b) = true then a else 0) := by
  induction db with
  | nil => simp [countOf_nil]
  | cons r db ih =>
    rw [List.map_cons, countOf_cons, countOf_cons, ih, keyIs_bump]
    by_cases h : keyIs id b r = true
    · simp [h, bump]
    · simp [h]

theorem countOf_map_bump_other (db : Store) (id b a id' b' : Int) (h : ¬ (id' = id ∧ b' = b)) :
    countOf (db.map (bump id b a)) id' b' = countOf db id' b' := by
  induction db with
  | nil => rfl
  | cons r db ih =>
    rw [List.map_cons, countOf_cons, countOf_cons, ih, keyIs_bump]
    by_cases h' : keyIs id' b' r = true
    · have hk : keyIs id b r = false := by
        rcases (keyIs_iff id' b' r).1 h' with ⟨e₁, e₂⟩
        rw [Bool.eq_false_iff]
        intro hk
        rcases (keyIs_iff id b r).1 hk with ⟨e₃, e₄⟩
        exact h ⟨e₁.symm.trans e₃, e₂.symm.trans e₄⟩
      simp [h', bump, hk]
    · simp [h']

theorem countOf_append_single (db : Store) (r : Row) (id b : Int) :
    countOf (db ++ [r]) id b
      = if db.any (keyIs id b) = true then countOf db id b else if keyIs id b r then r.count else 0 := by
  induction db with
  | nil => simp [countOf_cons, countOf_nil]
  | cons x db ih =>
    rw [List.cons_append, countOf_cons, countOf_cons, ih]
    by_cases h : keyIs id b x = true <;> simp [h]

theorem countOf_of_not_any (db : Store) (id b : Int) (h : db.any (keyIs id b) = false) :
    countOf db id b = 0 := by
  induction db with
  | nil => rfl
  | cons x db ih =>
    simp only [List.any_cons, Bool.or_eq_false_iff] at h
    rw [countOf_cons, ih h.2]
    simp [h.1]

/-- An upsert adds its amount to the count of its own key and leaves every other count as it is. -/
theorem countOf_upsert (db : Store) (id b a id' b' : Int) :
    countOf (upsert db id b a) id' b' = countOf db id' b' + (if id' = id ∧ b' = b then a else 0) := by
  unfold upsert
  by_cases hk : id' = id ∧ b' = b
  · obtain ⟨rfl, rfl⟩ := hk
    by_cases h : db.any (keyIs id' b') = true
    · simp only [h, if_true, countOf_map_bump_same]; simp
    · have h' : db.any (keyIs id' b') = false := by simpa using h
      rw [if_neg h, countOf_append_single, countOf_of_not_any db id' b' h']
      simp [h', keyIs]
  · by_cases h : db.any (keyIs id b) = true
    · rw [if_pos h, countOf_map_bump_other db id b a id' b' hk]; simp [hk]
    · rw [if_neg h, countOf_append_single]
      have hn : keyIs id' b' { banner_id := id, timestamp := b, count := a } = false := by
        rw [Bool.eq_false_iff]
        intro hh
        have := (keyIs_iff id' b' _).1 hh
        exact hk ⟨this.1.symm, this.2.symm⟩
      by_cases h2 : db.any (keyIs id' b') = true
      · simp [h2, hk]
      · have h2' : db.any (keyIs id' b') = false := by simpa using h2
        rw [countOf_of_not_any db id' b' h2']
        simp [h2', hn, hk]

theorem amountFor_nil (id : Int) : amountFor id [] = 0 := rfl

theorem amountFor_cons (id : Int) (c : ClickBatch) (cs : List ClickBatch) :
    amountFor id (c :: cs) = (if c.BannerID = id then c.Count else 0) + amountFor id cs := by
  unfold amountFor
  by_cases h : c.BannerID = id <;> simp [List.filter_cons, h]

theorem countOf_applyAll (bucket : Int) (batch : List ClickBatch) (tx : Store) (id b : Int) :
    countOf (applyAll bucket tx batch) id b
      = countOf tx id b + (if b = bucket then amountFor id batch else 0) := by
  induction batch generalizing tx with
  | nil => simp [applyAll, amountFor_nil]
  | cons c cs ih =>
    have : applyAll bucket tx (c :: cs) = applyAll bucket (upsert tx c.BannerID bucket c.Count) cs := rfl
    rw [this, ih, countOf_upsert, amountFor_cons]
    by_cases hb : b = bucket
    · by_cases hc : c.BannerID = id
      · simp [hb, hc, add_assoc]
      · have hc' : ¬ id = c.BannerID := fun e => hc e.symm
        simp [hb, hc, hc']
    · simp [hb]

theorem amountFor_all_same (id : Int) (batch : List ClickBatch) (h : ∀ c ∈ batch, c.BannerID = id) :
    amountFor id batch = (batch.map ClickBatch.Count).sum := by
  induction batch with
  | nil => rfl
  | cons c cs ih =>
    rw [amountFor_cons, ih (fun x hx => h x (List.mem_cons_of_mem _ hx))]
    simp [h c (List.mem_cons_self _ _)]


/-! ## Lemmas on `flushBatch` -/

/-- The `ExecContext` calls of a batch, in order. -/
theorem execLoop_spec (env : DbEnv) (bucket : Int) (batch : List ClickBatch) :
    ∀ (i : Nat) (tx : Store) (calls : List DbCall),
      (∀ tx₁, (execLoop env bucket i batch tx calls).1 = some tx₁ →
          tx₁ = applyAll bucket tx batch ∧
          (execLoop env bucket i batch tx calls).2.2
            = calls ++ batch.map (fun c => DbCall.exec c.BannerID c.Count)) ∧
      ((execLoop env bucket i batch tx calls).1 = none →
          ∃ j, (execLoop env bucket i batch tx calls).2.1 = some j) := by
  induction batch with
  | nil =>
    intro i tx calls
    simp [execLoop, applyAll]
  | cons c cs ih =>
    intro i tx calls
    unfold execLoop
    by_cases h : env.execErr i tx c = true
    · simp [h]
    · simp only [h, Bool.false_eq_true, if_false]
      have := ih (i + 1) (upsert tx c.BannerID bucket c.Count)
        (calls ++ [DbCall.exec c.BannerID c.Count])
      refine ⟨fun tx₁ h₁ => ?_, this.2⟩
      have h₂ := this.1 tx₁ h₁
      refine ⟨h₂.1, ?_⟩
      rw [h₂.2]
      simp

/-- A transaction that does not commit leaves the table as it was; one that commits
leaves the upserts of the whole batch and has made one exec call per element. -/
theorem runTx_spec (env : DbEnv) (db : Store) (batch : List ClickBatch) :
    ((runTx env db batch).outcome = FlushOutcome.committed →
        (runTx env db batch).db = applyAll (dateTruncMinute env.now) db batch ∧
        (runTx env db batch).calls
          = [DbCall.beginTx, DbCall.prepare] ++ batch.map (fun c => DbCall.exec c.BannerID c.Count)
              ++ [DbCall.commit]) ∧
    ((runTx env db batch).outcome ≠ FlushOutcome.committed → (runTx env db batch).db = db) := by
  unfold runTx
  by_cases hb : env.beginErr = true
  · simp [hb]
  by_cases hp : env.prepareErr = true
  · simp [hb, hp]
  simp only [hb, hp, Bool.false_eq_true, if_false]
  have hs := execLoop_spec env (dateTruncMinute env.now) batch 0 db [DbCall.beginTx, DbCall.prepare]
  rcases hres : execLoop env (dateTruncMinute env.now) 0 batch db [DbCall.beginTx, DbCall.prepare]
    with ⟨otx, oi, calls⟩
  rw [hres] at hs
  cases otx with
  | none => simp
  | some tx =>
    have h₁ := hs.1 tx rfl
    by_cases hc : env.commitErr = true
    · simp [hc]
    · simp only [hc, Bool.false_eq_true, if_false]
      simp only at h₁
      refine ⟨fun _ => ⟨h₁.1, by rw [h₁.2]⟩, fun h => absurd rfl h⟩

theorem flushBatch_eq_of_free (env : DbEnv) (s : State) (hm : s.mu = false) (hne : s.batch ≠ []) :
    flushBatch env s
      = ({ s with batch := [], db := (runTx env s.db s.batch).db, flushes := s.flushes ++ [s.batch] },
         { outcome := (runTx env s.db s.batch).outcome, calls := (runTx env s.db s.batch).calls }) := by
  have he : ¬ s.batch.length = 0 := fun e => hne (List.length_eq_zero.1 e)
  unfold flushBatch
  simp only [hm, he, Bool.false_eq_true, if_false]

theorem flushBatch_outcome_committed (env : DbEnv) (s : State)
    (h : (flushBatch env s).2.outcome = FlushOutcome.committed) :
    s.mu = false ∧ s.batch ≠ [] := by
  unfold flushBatch at h
  by_cases hm : s.mu = true
  · simp [hm] at h
  by_cases he : s.batch.length = 0
  · simp [hm, he] at h
  exact ⟨by simpa using hm, fun e => he (by simp [e])⟩

/-- A flush that does not commit leaves the table as it was. -/
theorem flushBatch_db_of_not_committed (env : DbEnv) (s : State)
    (h : (flushBatch env s).2.outcome ≠ FlushOutcome.committed) : (flushBatch env s).1.db = s.db := by
  unfold flushBatch at h ⊢
  by_cases hm : s.mu = true
  · simp [hm]
  by_cases he : s.batch.length = 0
  · simp [hm, he]
  simp only [hm, he, Bool.false_eq_true, if_false] at h ⊢
  exact (runTx_spec env s.db s.batch).2 h

/-- A committed flush leaves exactly the upserts of the batch it captured. -/
theorem flushBatch_db_of_committed (env : DbEnv) (s : State)
    (h : (flushBatch env s).2.outcome = FlushOutcome.committed) :
    (flushBatch env s).1.db = applyAll (dateTruncMinute env.now) s.db s.batch := by
  obtain ⟨hm, hne⟩ := flushBatch_outcome_committed env s h
  rw [flushBatch_eq_of_free env s hm hne] at h ⊢
  exact ((runTx_spec env s.db s.batch).1 h).1

theorem execCount_calls (batch : List ClickBatch) :
    execCount ([DbCall.beginTx, DbCall.prepare] ++ batch.map (fun c => DbCall.exec c.BannerID c.Count)
      ++ [DbCall.commit]) = batch.length := by
  unfold execCount
  simp [List.filter_cons, List.filter_append, List.filter_map]

/-! ## The table as a bag of rows: upserts commute -/

theorem any_keyIs_perm {s t : Store} (p : s.Perm t) (id b : Int) :
    s.any (keyIs id b) = t.any (keyIs id b) := by
  rw [Bool.eq_iff_iff]
  simp only [List.any_eq_true]
  exact ⟨fun ⟨x, hx, hk⟩ => ⟨x, p.mem_iff.1 hx, hk⟩, fun ⟨x, hx, hk⟩ => ⟨x, p.mem_iff.2 hx, hk⟩⟩

theorem upsert_perm {s t : Store} (p : s.Perm t) (id b a : Int) :
    (upsert s id b a).Perm (upsert t id b a) := by
  unfold upsert
  rw [any_keyIs_perm p id b]
  split
  · exact p.map _
  · exact p.append_right _

theorem any_keyIs_map_bump (s : Store) (id b a id' b' : Int) :
    (s.map (bump id b a)).any (keyIs id' b') = s.any (keyIs id' b') := by
  rw [List.any_map]
  congr 1
  funext r
  exact keyIs_bump id b a id' b' r

theorem bump_pos (id b a : Int) (r : Row) (h : keyIs id b r = true) :
    bump id b a r = { r with count := r.count + a } := by
  simp [bump, h]

theorem bump_neg (id b a : Int) (r : Row) (h : keyIs id b r = false) : bump id b a r = r := by
  simp [bump, h]

theorem map_bump_of_not_any (s : Store) (id b a : Int) (h : s.any (keyIs id b) = false) :
    s.map (bump id b a) = s := by
  induction s with
  | nil => rfl
  | cons r s ih =>
    simp only [List.any_cons, Bool.or_eq_false_iff] at h
    rw [List.map_cons, ih h.2, bump_neg id b a r h.1]

theorem bump_comm (id b a id' b' a' : Int) (r : Row) :
    bump id b a (bump id' b' a' r) = bump id' b' a' (bump id b a r) := by
  have k₁ := keyIs_bump id' b' a' id b r
  have k₂ := keyIs_bump id b a id' b' r
  by_cases h : keyIs id b r = true
  · by_cases h' : keyIs id' b' r = true
    · rw [bump_pos id b a _ (k₁.trans h), bump_pos id' b' a' _ (k₂.trans h'), bump_pos id b a r h,
        bump_pos id' b' a' r h']
      simp [add_right_comm]
    · have h'' : keyIs id' b' r = false := by simpa using h'
      rw [bump_neg id' b' a' _ (k₂.trans h''), bump_neg id' b' a' r h'']
  · have h'' : keyIs id b r = false := by simpa using h
    rw [bump_neg id b a _ (k₁.trans h''), bump_neg id b a r h'']

theorem keyIs_ne (id b id' b' c : Int) (h : ¬ (id' = id ∧ b' = b)) :
    keyIs id' b' { banner_id := id, timestamp := b, count := c } = false := by
  rw [Bool.eq_false_iff]
  intro hh
  have := (keyIs_iff id' b' _).1 hh
  exact h ⟨this.1.symm, this.2.symm⟩

theorem upsert_of_any (s : Store) (id b a : Int) (h : s.any (keyIs id b) = true) :
    upsert s id b a = s.map (bump id b a) := by
  simp only [upsert, h, if_true]

theorem upsert_of_not_any (s : Store) (id b a : Int) (h : s.any (keyIs id b) = false) :
    upsert s id b a = s ++ [{ banner_id := id, timestamp := b, count := a }] := by
  simp only [upsert, h, Bool.false_eq_true, if_false]

theorem any_keyIs_append_single (s : Store) (r : Row) (id b : Int) :
    (s ++ [r]).any (keyIs id b) = (s.any (keyIs id b) || keyIs id b r) := by
  simp

/-- Two upserts applied in either order leave the same bag of rows. -/
theorem upsert_comm (s : Store) (id b a id' b' a' : Int) :
    (upsert (upsert s id b a) id' b' a').Perm (upsert (upsert s id' b' a') id b a) := by
  by_cases hk : id' = id ∧ b' = b
  · obtain ⟨rfl, rfl⟩ := hk
    by_cases h : s.any (keyIs id' b') = true
    · have e : ∀ x y : Int, upsert (upsert s id' b' x) id' b' y
          = (s.map (bump id' b' x)).map (bump id' b' y) := by
        intro x y
        rw [upsert_of_any s id' b' x h, upsert_of_any _ id' b' y ((any_keyIs_map_bump _ _ _ _ _ _).trans h)]
      rw [e, e, List.map_map, List.map_map]
      apply List.Perm.of_eq
      apply List.map_congr_left
      intro r _
      exact bump_comm _ _ _ _ _ _ r
    · have h' : s.any (keyIs id' b') = false := by simpa using h
      have e : ∀ x y : Int, upsert (upsert s id' b' x) id' b' y
          = s ++ [{ banner_id := id', timestamp := b', count := x + y }] := by
        intro x y
        have hk : keyIs id' b' { banner_id := id', timestamp := b', count := x } = true := by
          simp [keyIs]
        rw [upsert_of_not_any s id' b' x h', upsert_of_any _ id' b' y
          (by rw [any_keyIs_append_single, hk, Bool.or_true]), List.map_append,
          map_bump_of_not_any s id' b' y h', List.map_singleton, bump_pos _ _ _ _ hk]
      rw [e, e, add_comm]
  · have hk' : ¬ (id = id' ∧ b = b') := fun e => hk ⟨e.1.symm, e.2.symm⟩
    by_cases h : s.any (keyIs id b) = true
    · by_cases h' : s.any (keyIs id' b') = true
      · rw [upsert_of_any s id b a h, upsert_of_any s id' b' a' h',
          upsert_of_any _ id' b' a' ((any_keyIs_map_bump _ _ _ _ _ _).trans h'),
          upsert_of_any _ id b a ((any_keyIs_map_bump _ _ _ _ _ _).trans h), List.map_map, List.map_map]
        apply List.Perm.of_eq
        apply List.map_congr_left
        intro r _
        exact bump_comm _ _ _ _ _ _ r
      · have h'' : s.any (keyIs id' b') = false := by simpa using h'
        rw [upsert_of_any s id b a h, upsert_of_not_any s id' b' a' h'',
          upsert_of_not_any _ id' b' a' ((any_keyIs_map_bump _ _ _ _ _ _).trans h''),
          upsert_of_any _ id b a (by rw [any_keyIs_append_single, h, Bool.true_or]),
          List.map_append, List.map_singleton, bump_neg id b a _ (keyIs_ne id' b' id b a' hk')]
    · have h₀ : s.any (keyIs id b) = false := by simpa using h
      by_cases h' : s.any (keyIs id' b') = true
      · rw [upsert_of_not_any s id b a h₀, upsert_of_any s id' b' a' h',
          upsert_of_not_any _ id b a ((any_keyIs_map_bump _ _ _ _ _ _).trans h₀),
          upsert_of_any _ id' b' a' (by rw [any_keyIs_append_single, h', Bool.true_or]),
          List.map_append, List.map_singleton, bump_neg id' b' a' _ (keyIs_ne id b id' b' a hk)]
      · have h'' : s.any (keyIs id' b') = false := by simpa using h'
        rw [upsert_of_not_any s id b a h₀, upsert_of_not_any s id' b' a' h'',
          upsert_of_not_any _ id' b' a'
            (by rw [any_keyIs_append_single, h'', keyIs_ne id b id' b' a hk, Bool.or_false]),
          upsert_of_not_any _ id b a
            (by rw [any_keyIs_append_single, h₀, keyIs_ne id' b' id b a' hk', Bool.or_false]),
          List.append_assoc, List.append_assoc]
        exact List.Perm.append_left s (List.Perm.swap _ _ [])

theorem applyAll_perm_store (bucket : Int) (batch : List ClickBatch) :
    ∀ {s t : Store}, s.Perm t → (applyAll bucket s batch).Perm (applyAll bucket t batch) := by
  induction batch with
  | nil => intro s t p; exact p
  | cons c cs ih => intro s t p; exact ih (upsert_perm p _ _ _)

/-- The bag of rows left by the upserts of a batch does not depend on the order of the batch. -/
theorem applyAll_perm_batch (bucket : Int) {l₁ l₂ : List ClickBatch} (p : l₁.Perm l₂) :
    ∀ s : Store, (applyAll bucket s l₁).Perm (applyAll bucket s l₂) := by
  induction p with
  | nil => intro s; exact List.Perm.refl _
  | cons x _ ih => intro s; exact ih (upsert s x.BannerID bucket x.Count)
  | swap x y l =>
    intro s
    exact applyAll_perm_store bucket l (upsert_comm s y.BannerID bucket y.Count x.BannerID bucket x.Count)
  | trans _ _ ih₁ ih₂ => intro s; exact (ih₁ s).trans (ih₂ s)

theorem applyAll_append (bucket : Int) (s : Store) (l₁ l₂ : List ClickBatch) :
    applyAll bucket s (l₁ ++ l₂) = applyAll bucket (applyAll bucket s l₁) l₂ := by
  simp [applyAll, List.foldl_append]

theorem amountFor_append (id : Int) (l₁ l₂ : List ClickBatch) :
    amountFor id (l₁ ++ l₂) = amountFor id l₁ + amountFor id l₂ := by
  simp [amountFor]

/-! ## Lemmas on `batchWorker` -/

theorem run_nil (s : State) : run [] s = s := rfl

theorem run_cons (x : Sel × DbEnv) (sched : List (Sel × DbEnv)) (s : State) :
    run (x :: sched) s = run sched (step x.2 s x.1) := rfl

theorem run_append (sched₁ sched₂ : List (Sel × DbEnv)) (s : State) :
    run (sched₁ ++ sched₂) s = run sched₂ (run sched₁ s) := by
  simp [run, List.foldl_append]

/-- A worker that is not running any more takes no further step. -/
theorem step_of_not_running (env : DbEnv) (s : State) (sel : Sel) (h : s.status ≠ Status.running) :
    step env s sel = s := by
  unfold step
  cases hs : s.status <;> simp_all

theorem run_of_not_running (sched : List (Sel × DbEnv)) (s : State) (h : s.status ≠ Status.running) :
    run sched s = s := by
  induction sched with
  | nil => rfl
  | cons x xs ih => rw [run_cons, step_of_not_running _ _ _ h, ih]

/-- Receiving an event that leaves the batch below the threshold: the event is appended
and the mutex is free again. -/
theorem step_recv_below (env : DbEnv) (c : ClickBatch) (rest batch : List ClickBatch)
    (db : Store) (fl : List (List ClickBatch)) (closed : Bool) (h : batch.length + 1 < batchSize) :
    step env { clickChan := { buf := c :: rest, closed := closed }, batch := batch, mu := false, db := db,
               flushes := fl, status := Status.running } Sel.recv
      = { clickChan := { buf := rest, closed := closed }, batch := batch ++ [c], mu := false, db := db,
          flushes := fl, status := Status.running } := by
  have h' : ¬ (batch.length + 1 ≥ batchSize) := by omega
  simp [step, unlock, h']

/-- Receiving the event that brings the batch to the threshold: `flushBatch` is called
with the mutex held and blocks in `mu.Lock()`. -/
theorem step_recv_threshold (env : DbEnv) (c : ClickBatch) (rest batch : List ClickBatch)
    (db : Store) (fl : List (List ClickBatch)) (closed : Bool) (h : batchSize ≤ batch.length + 1) :
    step env { clickChan := { buf := c :: rest, closed := closed }, batch := batch, mu := false, db := db,
               flushes := fl, status := Status.running } Sel.recv
      = { clickChan := { buf := rest, closed := closed }, batch := batch ++ [c], mu := true, db := db,
          flushes := fl, status := Status.deadlocked } := by
  simp [step, flushBatch, h]

/-- Receiving events while the batch stays below the threshold only moves them from the
channel to the batch. -/
theorem run_recv_below (evs : List ClickBatch) :
    ∀ (envs : List DbEnv) (rest batch : List ClickBatch) (db : Store) (fl : List (List ClickBatch))
      (closed : Bool), envs.length = evs.length → batch.length + evs.length < batchSize →
      run (envs.map (fun e => (Sel.recv, e)))
          { clickChan := { buf := evs ++ rest, closed := closed }, batch := batch, mu := false, db := db,
            flushes := fl, status := Status.running }
        = { clickChan := { buf := rest, closed := closed }, batch := batch ++ evs, mu := false, db := db,
            flushes := fl, status := Status.running } := by
  induction evs with
  | nil =>
    intro envs rest batch db fl closed hl _
    have : envs = [] := List.length_eq_zero.1 hl
    subst this
    simp [run]
  | cons c cs ih =>
    intro envs rest batch db fl closed hl hlt
    cases envs with
    | nil => simp at hl
    | cons e es =>
      simp only [List.length_cons] at hl hlt
      rw [List.map_cons, run_cons, List.cons_append]
      simp only
      rw [step_recv_below e c (cs ++ rest) batch db fl closed (by omega),
        ih es rest (batch ++ [c]) db fl closed (by omega) (by simp; omega)]
      simp

/-- A timer tick flushes a batch that is not empty: it is captured whole and the batch is
left empty. -/
theorem step_tick_nonempty (env : DbEnv) (ch : Chan) (batch : List ClickBatch) (db : Store)
    (fl : List (List ClickBatch)) (h : batch ≠ []) :
    step env { clickChan := ch, batch := batch, mu := false, db := db, flushes := fl,
               status := Status.running } Sel.tick
      = { clickChan := ch, batch := [], mu := false, db := (runTx env db batch).db,
          flushes := fl ++ [batch], status := Status.running } := by
  have h' : ¬ batch.length = 0 := fun e => h (List.length_eq_zero.1 e)
  simp [step, flushBatch, h']

/-- A timer tick with an empty batch does nothing. -/
theorem step_tick_empty (env : DbEnv) (ch : Chan) (db : Store) (fl : List (List ClickBatch)) :
    step env { clickChan := ch, batch := [], mu := false, db := db, flushes := fl,
               status := Status.running } Sel.tick
      = { clickChan := ch, batch := [], mu := false, db := db, flushes := fl,
          status := Status.running } := by
  simp [step, flushBatch]

/-- Receiving as many events as the threshold, with no tick in between, ends in the
deadlock: nothing was flushed, the events sit in the batch, the mutex is held. -/
theorem run_recv_threshold (evs : List ClickBatch) (envs : List DbEnv) (rest : List ClickBatch)
    (db : Store) (closed : Bool) (hl : envs.length = evs.length) (hn : evs.length = batchSize) :
    run (envs.map (fun e => (Sel.recv, e))) (State.init (evs ++ rest) closed db)
      = { clickChan := { buf := rest, closed := closed }, batch := evs, mu := true, db := db,
          flushes := [], status := Status.deadlocked } := by
  obtain ⟨c, hc⟩ : ∃ c, evs.getLast? = some c := by
    cases h : evs.getLast? with
    | none => rw [List.getLast?_eq_none_iff] at h; subst h; simp [batchSize] at hn
    | some c => exact ⟨c, rfl⟩
  obtain ⟨e, he⟩ : ∃ e, envs.getLast? = some e := by
    cases h : envs.getLast? with
    | none =>
      rw [List.getLast?_eq_none_iff] at h; subst h
      rw [← hl] at hn; simp [batchSize] at hn
    | some e => exact ⟨e, rfl⟩
  have hevs : evs = evs.dropLast ++ [c] := (List.dropLast_append_getLast? c hc).symm
  have henvs : envs = envs.dropLast ++ [e] := (List.dropLast_append_getLast? e he).symm
  have hlen : evs.dropLast.length = batchSize - 1 := by rw [List.length_dropLast, hn]
  have hlen' : envs.dropLast.length = evs.dropLast.length := by
    rw [List.length_dropLast, List.length_dropLast, hl]
  have hb : batchSize = 100 := rfl
  rw [henvs, List.map_append, run_append, State.init]
  conv_lhs => rw [hevs, List.append_assoc]
  rw [run_recv_below evs.dropLast envs.dropLast ([c] ++ rest) [] db [] closed hlen' (by simp; omega)]
  rw [List.map_singleton, run_cons, run_nil]
  simp only [List.nil_append, List.singleton_append]
  rw [step_recv_threshold e c rest evs.dropLast db [] closed (by omega)]
  rw [← hevs]

/-! ## Lemmas on the handlers -/

theorem scanLoop_healthy (rows : List Row) :
    ∀ (i : Nat) (stats : Slice Click),
      scanLoop QueryEnv.healthy i rows stats
        = Except.ok (rows.foldl (fun st r => goAppend st (scanRow r)) stats) := by
  induction rows with
  | nil => intro i stats; rfl
  | cons r rs ih =>
    intro i stats
    have := ih (i + 1) (goAppend stats (scanRow r))
    simpa [scanLoop, QueryEnv.healthy] using this

theorem foldl_goAppend_some (rows : List Row) :
    ∀ cs : List Click, rows.foldl (fun st r => goAppend st (scanRow r)) (some cs)
      = some (cs ++ rows.map scanRow) := by
  induction rows with
  | nil => intro cs; simp
  | cons r rs ih =>
    intro cs
    rw [List.foldl_cons, show goAppend (some cs) (scanRow r) = some (cs ++ [scanRow r]) from rfl, ih]
    simp

theorem foldl_goAppend_none (rows : List Row) :
    rows.foldl (fun st r => goAppend st (scanRow r)) none = sliceOf (rows.map scanRow) := by
  cases rows with
  | nil => rfl
  | cons r rs =>
    rw [List.foldl_cons, show goAppend none (scanRow r) = some [scanRow r] from rfl,
      foldl_goAppend_some]
    rfl

/-- A stats request with a well-formed identifier and body, served by a healthy database,
is answered with the selected rows. -/
theorem handleStats_ok (db : Store) (bannerID : String) (id : Int) (req : StatsRequest)
    (h : Sscanf bannerID = some id) :
    handleStats db QueryEnv.healthy bannerID (Except.ok req)
      = Reply.json 200 (Json.obj [("stats",
          marshalClicks (sliceOf ((selectStats db id req.TsFrom req.TsTo).map scanRow)))]) := by
  unfold handleStats
  rw [h]
  simp only [scanLoop_healthy, foldl_goAppend_none]
  rfl

theorem inRange_iff (id tsFrom tsTo : Int) (r : Row) :
    inRange id tsFrom tsTo r = true ↔ r.banner_id = id ∧ tsFrom ≤ r.timestamp ∧ r.timestamp ≤ tsTo := by
  simp [inRange]

theorem selectStats_perm (db : Store) (id tsFrom tsTo : Int) :
    (selectStats db id tsFrom tsTo).Perm
      (db.filter (fun r => decide (r.banner_id = id ∧ tsFrom ≤ r.timestamp ∧ r.timestamp ≤ tsTo))) := by
  have e : (fun r => decide (r.banner_id = id ∧ tsFrom ≤ r.timestamp ∧ r.timestamp ≤ tsTo))
      = inRange id tsFrom tsTo := by
    funext r
    rw [Bool.eq_iff_iff, inRange_iff]
    simp
  rw [e]
  exact List.perm_insertionSort _ _

theorem selectStats_sorted (db : Store) (id tsFrom tsTo : Int) :
    (selectStats db id tsFrom tsTo).Sorted byTimestamp :=
  List.sorted_insertionSort _ _

theorem selectStats_three (db : Store) (id t₁ t₂ t₃ c₁ c₂ c₃ : Int) (h₁₂ : t₁ < t₂) (h₂₃ : t₂ < t₃)
    (hp : db.Perm [{ banner_id := id, timestamp := t₁, count := c₁ },
                   { banner_id := id, timestamp := t₂, count := c₂ },
                   { banner_id := id, timestamp := t₃, count := c₃ }]) :
    selectStats db id t₁ t₂ = [{ banner_id := id, timestamp := t₁, count := c₁ },
                               { banner_id := id, timestamp := t₂, count := c₂ }] := by
  have hm := List.mem_permutations.2 hp
  have h₂₁ : ¬ t₂ ≤ t₁ := by omega
  have h₃₂ : ¬ t₃ ≤ t₂ := by omega
  have h₁₂' : t₁ ≤ t₂ := by omega
  have h₁₃ : t₁ ≤ t₃ := by omega
  simp [List.permutations, List.permutationsAux, List.permutationsAux.rec, List.permutationsAux2] at hm
  rcases hm with rfl | rfl | rfl | rfl | rfl | rfl <;>
    simp [selectStats, inRange, List.filter_cons, List.insertionSort, List.orderedInsert, byTimestamp,
      h₂₁, h₃₂, h₁₂', h₁₃]

/-! ## Properties of the service -/

/-- C1, additivity. When `flushBatch` commits a batch whose events all carry the counter
`id`, the stored count of `(id, bucket)`, with `bucket` the minute of the flush, is its
count before the flush plus the sum of the amounts of the batch; when no row existed
before, it is that sum. -/
theorem flushBatch_additive (env : DbEnv) (s : State) (id : Int)
    (hsame : ∀ c ∈ s.batch, c.BannerID = id)
    (hok : (flushBatch env s).2.outcome = FlushOutcome.committed) :
    countOf (flushBatch env s).1.db id (dateTruncMinute env.now)
        = countOf s.db id (dateTruncMinute env.now) + (s.batch.map ClickBatch.Count).sum ∧
      (s.db.any (keyIs id (dateTruncMinute env.now)) = false →
        countOf (flushBatch env s).1.db id (dateTruncMinute env.now)
          = (s.batch.map ClickBatch.Count).sum) := by
  have h : countOf (flushBatch env s).1.db id (dateTruncMinute env.now)
      = countOf s.db id (dateTruncMinute env.now) + (s.batch.map ClickBatch.Count).sum := by
    rw [flushBatch_db_of_committed env s hok, countOf_applyAll, amountFor_all_same id s.batch hsame]
    simp
  refine ⟨h, fun hno => ?_⟩
  rw [h, countOf_of_not_any s.db id _ hno, zero_add]

/-- Witness of C1: two events of counter 7 flushed onto a row holding 10. -/
theorem flushBatch_additive_witness :
    (∀ c ∈ ({ State.init [] false [{ banner_id := 7, timestamp := 60000000, count := 10 }] with
              batch := [{ BannerID := 7, Count := 2 }, { BannerID := 7, Count := 3 }] } : State).batch,
        c.BannerID = 7) ∧
      countOf (flushBatch (DbEnv.healthy 61000000)
          { State.init [] false [{ banner_id := 7, timestamp := 60000000, count := 10 }] with
            batch := [{ BannerID := 7, Count := 2 }, { BannerID := 7, Count := 3 }] }).1.db 7
          (dateTruncMinute 61000000) = 15 :=
  ⟨by decide,
   (flushBatch_additive (DbEnv.healthy 61000000)
      { State.init [] false [{ banner_id := 7, timestamp := 60000000, count := 10 }] with
        batch := [{ BannerID := 7, Count := 2 }, { BannerID := 7, Count := 3 }] } 7
      (by decide) (by decide)).1⟩

/-- C2, bucket merge. Let batches `A` and `B` be flushed one after the other, both commits
succeeding and both falling into the same minute `bucket`, in the order `A`, `B` and also in
the order `B`, `A`. Then in the first order every `(id, bucket)` ends with its prior count
plus the amounts of `id` in `A` plus those in `B`, and both orders leave the same table
(the same bag of rows). -/
theorem flushBatch_merge (s : State) (A B : List ClickBatch) (eA eB eB' eA' : DbEnv) (bucket : Int)
    (hA : dateTruncMinute eA.now = bucket) (hB : dateTruncMinute eB.now = bucket)
    (hB' : dateTruncMinute eB'.now = bucket) (hA' : dateTruncMinute eA'.now = bucket)
    (h₁ : (flushBatch eA { s with batch := A }).2.outcome = FlushOutcome.committed)
    (h₂ : (flushBatch eB { (flushBatch eA { s with batch := A }).1 with batch := B }).2.outcome
            = FlushOutcome.committed)
    (h₃ : (flushBatch eB' { s with batch := B }).2.outcome = FlushOutcome.committed)
    (h₄ : (flushBatch eA' { (flushBatch eB' { s with batch := B }).1 with batch := A }).2.outcome
            = FlushOutcome.committed) :
    (∀ id : Int,
        countOf (flushBatch eB { (flushBatch eA { s with batch := A }).1 with batch := B }).1.db id bucket
          = countOf s.db id bucket + amountFor id A + amountFor id B) ∧
      ((flushBatch eB { (flushBatch eA { s with batch := A }).1 with batch := B }).1.db
          : Multiset Row)
        = ((flushBatch eA' { (flushBatch eB' { s with batch := B }).1 with batch := A }).1.db
          : Multiset Row) := by
  have e₁ := flushBatch_db_of_committed _ _ h₁
  have e₂ := flushBatch_db_of_committed _ _ h₂
  have e₃ := flushBatch_db_of_committed _ _ h₃
  have e₄ := flushBatch_db_of_committed _ _ h₄
  simp only [hA, hB, hB', hA'] at e₁ e₂ e₃ e₄
  rw [e₂, e₄, e₁, e₃, ← applyAll_append, ← applyAll_append]
  refine ⟨fun id => ?_, ?_⟩
  · rw [countOf_applyAll, amountFor_append]
    simp [add_assoc]
  · exact Multiset.coe_eq_coe.2 (applyAll_perm_batch bucket List.perm_append_comm s.db)

/-- Witness of C2: counters 1 and 2 flushed in either order onto a table holding counter 1. -/
theorem flushBatch_merge_witness :
    countOf (flushBatch (DbEnv.healthy 62000000)
        { (flushBatch (DbEnv.healthy 61000000)
            { State.init [] false [{ banner_id := 1, timestamp := 60000000, count := 4 }] with
              batch := [{ BannerID := 1, Count := 1 }, { BannerID := 2, Count := 1 }] }).1 with
          batch := [{ BannerID := 3, Count := 1 }, { BannerID := 1, Count := 2 }] }).1.db 1 60000000
      = 4 + amountFor 1 [{ BannerID := 1, Count := 1 }, { BannerID := 2, Count := 1 }]
          + amountFor 1 [{ BannerID := 3, Count := 1 }, { BannerID := 1, Count := 2 }] :=
  (flushBatch_merge (State.init [] false [{ banner_id := 1, timestamp := 60000000, count := 4 }])
    [{ BannerID := 1, Count := 1 }, { BannerID := 2, Count := 1 }]
    [{ BannerID := 3, Count := 1 }, { BannerID := 1, Count := 2 }]
    (DbEnv.healthy 61000000) (DbEnv.healthy 62000000) (DbEnv.healthy 63000000) (DbEnv.healthy 64000000)
    60000000 (by decide) (by decide) (by decide) (by decide) (by decide) (by decide) (by decide)
    (by decide)).1 1

/-- C8, all-or-nothing flush. When `flushBatch` fails to begin the transaction, to prepare
the statement, or to execute the upsert of one of the events, the table after the call is
the table before it. -/
theorem flushBatch_all_or_nothing (env : DbEnv) (s : State)
    (hfail : (flushBatch env s).2.outcome = FlushOutcome.beginFailed ∨
      (flushBatch env s).2.outcome = FlushOutcome.prepareFailed ∨
      ∃ i, (flushBatch env s).2.outcome = FlushOutcome.execFailed i) :
    (flushBatch env s).1.db = s.db := by
  apply flushBatch_db_of_not_committed
  rcases hfail with h | h | ⟨i, h⟩ <;> rw [h] <;> simp

/-- Witness of C8: the second of three upserts fails; the first one is not visible. -/
theorem flushBatch_all_or_nothing_witness :
    (flushBatch { DbEnv.healthy 61000000 with execErr := fun i _ _ => i == 1 }
        { State.init [] false [{ banner_id := 1, timestamp := 60000000, count := 4 }] with
          batch := [{ BannerID := 1, Count := 1 }, { BannerID := 2, Count := 1 },
                    { BannerID := 3, Count := 1 }] }).2.outcome = FlushOutcome.execFailed 1 ∧
      (flushBatch { DbEnv.healthy 61000000 with execErr := fun i _ _ => i == 1 }
        { State.init [] false [{ banner_id := 1, timestamp := 60000000, count := 4 }] with
          batch := [{ BannerID := 1, Count := 1 }, { BannerID := 2, Count := 1 },
                    { BannerID := 3, Count := 1 }] }).1.db
        = [{ banner_id := 1, timestamp := 60000000, count := 4 }] :=
  ⟨by decide,
   flushBatch_all_or_nothing { DbEnv.healthy 61000000 with execErr := fun i _ _ => i == 1 }
      { State.init [] false [{ banner_id := 1, timestamp := 60000000, count := 4 }] with
        batch := [{ BannerID := 1, Count := 1 }, { BannerID := 2, Count := 1 },
                  { BannerID := 3, Count := 1 }] }
      (Or.inr (Or.inr ⟨1, by decide⟩))⟩

/-- C10 as stated fails: a committed flush of two events of the same counter executes two
upserts, while the batch holds one distinct counter. -/
theorem flushBatch_one_upsert_per_key_fails :
    (flushBatch (DbEnv.healthy 61000000)
        { State.init [] false [] with
          batch := [{ BannerID := 1, Count := 1 }, { BannerID := 1, Count := 1 }] }).2.outcome
        = FlushOutcome.committed ∧
      execCount (flushBatch (DbEnv.healthy 61000000)
        { State.init [] false [] with
          batch := [{ BannerID := 1, Count := 1 }, { BannerID := 1, Count := 1 }] }).2.calls = 2 ∧
      (([{ BannerID := 1, Count := 1 }, { BannerID := 1, Count := 1 }] : List ClickBatch).map
        ClickBatch.BannerID).dedup.length = 1 := by
  decide

/-- C10, amended: a committed `flushBatch` executes one upsert for each event of the
captured batch, in the order of the batch, between begin, prepare and commit; the number of
upsert executions is the length of the batch. -/
theorem flushBatch_one_upsert_per_event (env : DbEnv) (s : State)
    (hok : (flushBatch env s).2.outcome = FlushOutcome.committed) :
    (flushBatch env s).2.calls
        = [DbCall.beginTx, DbCall.prepare] ++ s.batch.map (fun c => DbCall.exec c.BannerID c.Count)
            ++ [DbCall.commit] ∧
      execCount (flushBatch env s).2.calls = s.batch.length := by
  obtain ⟨hm, hne⟩ := flushBatch_outcome_committed env s hok
  rw [flushBatch_eq_of_free env s hm hne] at hok ⊢
  have h := ((runTx_spec env s.db s.batch).1 hok).2
  simp only at h ⊢
  rw [h]
  exact ⟨rfl, execCount_calls s.batch⟩

/-- Witness of C10, amended: three events of two counters, three upserts. -/
theorem flushBatch_one_upsert_per_event_witness :
    execCount (flushBatch (DbEnv.healthy 61000000)
        { State.init [] false [] with
          batch := [{ BannerID := 1, Count := 1 }, { BannerID := 2, Count := 1 },
                    { BannerID := 1, Count := 1 }] }).2.calls = 3 :=
  (flushBatch_one_upsert_per_event (DbEnv.healthy 61000000)
      { State.init [] false [] with
        batch := [{ BannerID := 1, Count := 1 }, { BannerID := 2, Count := 1 },
                  { BannerID := 1, Count := 1 }] } (by decide)).2

/-- C3: the code at the threshold. The worker starts with an empty batch and a free mutex
and receives one hundred events with no tick in between. The iteration that handles the
hundredth event does not complete: `flushBatch` is entered with `mu` held and blocks in
`mu.Lock()`. No batch has been captured, the hundred events are still in the in-memory
batch, and the mutex stays held. -/
theorem batchWorker_threshold_deadlock (c : ClickBatch) (env : DbEnv) (db : Store) (closed : Bool) :
    run (List.replicate 100 (Sel.recv, env)) (State.init (List.replicate 100 c) closed db)
      = { clickChan := { buf := [], closed := closed }, batch := List.replicate 100 c, mu := true,
          db := db, flushes := [], status := Status.deadlocked } := by
  have h := run_recv_threshold (List.replicate 100 c) (List.replicate 100 env) [] db closed
    (by simp) (by simp [batchSize])
  simpa using h

/-- C4 as stated fails for the empty sequence: with no event received since the last flush,
the timer tick captures no batch, so it produces no flush. -/
theorem batchWorker_tick_empty_no_flush :
    (run [(Sel.tick, DbEnv.healthy 61000000)] (State.init [] false [])).flushes = [] := by
  decide

/-- C4, amended. The worker has an empty batch and a free mutex, and receives a non-empty
sequence of fewer than `batchSize` events. The next timer tick then produces exactly one
flush, whose captured batch is those events in arrival order, and leaves the in-memory
batch empty, the mutex free and the worker running. -/
theorem batchWorker_timer_flush (evs rest : List ClickBatch) (envs : List DbEnv) (envT : DbEnv)
    (db : Store) (fl : List (List ClickBatch)) (closed : Bool)
    (hne : evs ≠ []) (hlt : evs.length < batchSize) (hl : envs.length = evs.length) :
    (run (envs.map (fun e => (Sel.recv, e)) ++ [(Sel.tick, envT)])
        { clickChan := { buf := evs ++ rest, closed := closed }, batch := [], mu := false, db := db,
          flushes := fl, status := Status.running })
      = { clickChan := { buf := rest, closed := closed }, batch := [], mu := false,
          db := (runTx envT db evs).db, flushes := fl ++ [evs], status := Status.running } := by
  rw [run_append, run_recv_below evs envs rest [] db fl closed hl (by simpa using hlt),
    run_cons, run_nil, List.nil_append]
  exact step_tick_nonempty envT _ evs db fl hne

/-- Witness of C4, amended: two events, then a tick. -/
theorem batchWorker_timer_flush_witness :
    (run ([DbEnv.healthy 1, DbEnv.healthy 2].map (fun e => (Sel.recv, e))
          ++ [(Sel.tick, DbEnv.healthy 61000000)])
        { clickChan := { buf := [{ BannerID := 1, Count := 1 }, { BannerID := 2, Count := 1 }] ++ [],
                         closed := false },
          batch := [], mu := false, db := [], flushes := [], status := Status.running }).flushes
      = [[{ BannerID := 1, Count := 1 }, { BannerID := 2, Count := 1 }]] :=
  congrArg State.flushes
    (batchWorker_timer_flush [{ BannerID := 1, Count := 1 }, { BannerID := 2, Count := 1 }] []
      [DbEnv.healthy 1, DbEnv.healthy 2] (DbEnv.healthy 61000000) [] [] false
      (by decide) (by decide) (by decide))

/-- C5: the code at shutdown with a full batch worth of buffered events. The channel is
closed while it buffers one hundred events and the worker has an empty batch. Whatever the
worker is offered afterwards, it ends blocked in `mu.Lock()`: it never returns, and no
batch was handed to the database, so none of the hundred events is flushed. -/
theorem batchWorker_shutdown_deadlock (c : ClickBatch) (env : DbEnv) (db : Store)
    (sched : List (Sel × DbEnv)) :
    (run (List.replicate 100 (Sel.recv, env) ++ sched)
        (State.init (List.replicate 100 c) true db)).status = Status.deadlocked ∧
      (run (List.replicate 100 (Sel.recv, env) ++ sched)
        (State.init (List.replicate 100 c) true db)).flushes = [] ∧
      (run (List.replicate 100 (Sel.recv, env) ++ sched)
        (State.init (List.replicate 100 c) true db)).db = db := by
  have h := run_recv_threshold (List.replicate 100 c) (List.replicate 100 env) [] db true
    (by simp) (by simp [batchSize])
  simp only [List.map_replicate, List.append_nil] at h
  rw [run_append, h, run_of_not_running _ _ (by simp)]
  exact ⟨rfl, rfl, rfl⟩

/-- C6: the code on an identifier that starts with digits. The path parameter `12abc` is
not a decimal integer, yet `Sscanf` with `%d` stops after `12` and reports no error:
`handleCounter` answers 200 and enqueues a click for banner 12. -/
theorem handleCounter_accepts_trailing_garbage :
    Sscanf "12abc" = some 12 ∧
      handleCounter "12abc" { buf := [], closed := false }
        = (Reply.status 200, { buf := [{ BannerID := 12, Count := 1 }], closed := false }) := by
  have h : Sscanf "12abc" = some 12 := by decide
  refine ⟨h, ?_⟩
  unfold handleCounter
  rw [h]
  rfl

/-- C7, range query. A stats request with a well-formed identifier `id` and body, served by
a healthy database, is answered 200 with the rows selected for it: these are exactly the
stored rows with `banner_id = id` and `TsFrom ≤ timestamp ≤ TsTo` (each as often as it is
stored, so no row of another counter), in ascending order of timestamp, each returned with
its timestamp and count. In particular, when the table holds the buckets `t₁ < t₂ < t₃` of
the counter, in any order, the query `[t₁, t₂]` returns the rows at `t₁` and `t₂` in that
order and not the row at `t₃`. -/
theorem handleStats_range (bannerID : String) (id : Int) (hid : Sscanf bannerID = some id) :
    (∀ (db : Store) (req : StatsRequest),
      handleStats db QueryEnv.healthy bannerID (Except.ok req)
          = Reply.json 200 (Json.obj [("stats",
              marshalClicks (sliceOf ((selectStats db id req.TsFrom req.TsTo).map scanRow)))]) ∧
        (selectStats db id req.TsFrom req.TsTo).Perm
          (db.filter (fun r =>
            decide (r.banner_id = id ∧ req.TsFrom ≤ r.timestamp ∧ r.timestamp ≤ req.TsTo))) ∧
        (selectStats db id req.TsFrom req.TsTo).Sorted (fun a b => a.timestamp ≤ b.timestamp)) ∧
    (∀ (db : Store) (t₁ t₂ t₃ c₁ c₂ c₃ : Int), t₁ < t₂ → t₂ < t₃ →
      db.Perm [{ banner_id := id, timestamp := t₁, count := c₁ },
               { banner_id := id, timestamp := t₂, count := c₂ },
               { banner_id := id, timestamp := t₃, count := c₃ }] →
      handleStats db QueryEnv.healthy bannerID (Except.ok { TsFrom := t₁, TsTo := t₂ })
        = Reply.json 200 (Json.obj [("stats", Json.arr
            [marshalClick { BannerID := 0, Timestamp := t₁, Count := c₁ },
             marshalClick { BannerID := 0, Timestamp := t₂, Count := c₂ }])])) := by
  refine ⟨fun db req => ⟨handleStats_ok db bannerID id req hid, selectStats_perm db id _ _,
    selectStats_sorted db id _ _⟩, ?_⟩
  intro db t₁ t₂ t₃ c₁ c₂ c₃ h₁₂ h₂₃ hp
  rw [handleStats_ok db bannerID id _ hid]
  simp only
  rw [selectStats_three db id t₁ t₂ t₃ c₁ c₂ c₃ h₁₂ h₂₃ hp]
  rfl

/-- Witness of C7: banner 5 with buckets at minutes 1, 2 and 3, stored out of order next
to nothing else; the query over minutes 1 to 2 returns the first two in order. -/
theorem handleStats_range_witness :
    handleStats [{ banner_id := 5, timestamp := 180000000, count := 9 },
                 { banner_id := 5, timestamp := 60000000, count := 3 },
                 { banner_id := 5, timestamp := 120000000, count := 4 }]
        QueryEnv.healthy "5" (Except.ok { TsFrom := 60000000, TsTo := 120000000 })
      = Reply.json 200 (Json.obj [("stats", Json.arr
          [marshalClick { BannerID := 0, Timestamp := 60000000, Count := 3 },
           marshalClick { BannerID := 0, Timestamp := 120000000, Count := 4 }])]) :=
  (handleStats_range "5" 5 (by decide)).2
    [{ banner_id := 5, timestamp := 180000000, count := 9 },
     { banner_id := 5, timestamp := 60000000, count := 3 },
     { banner_id := 5, timestamp := 120000000, count := 4 }]
    60000000 120000000 180000000 3 4 9 (by decide) (by decide) (by decide)

/-- C9: the code on a request that matches no row. The table holds a row of another banner
and a row of banner 1 outside the requested range; `stats` is still the nil slice when it
is encoded, so the reply is 200 with `"stats": null`, not an empty list. -/
theorem handleStats_empty_is_null :
    handleStats [{ banner_id := 2, timestamp := 0, count := 5 },
                 { banner_id := 1, timestamp := 120000000, count := 3 }]
        QueryEnv.healthy "1" (Except.ok { TsFrom := 0, TsTo := 60000000 })
      = Reply.json 200 (Json.obj [("stats", Json.null)]) := by
  rw [handleStats_ok _ "1" 1 _ (by decide)]
  rfl

end Clicks
